import Mathlib

/-!
Shallow embedding of `src/xmler.py`: a pipeline that generates random XML
records, packs them into zip archives, reads them back and aggregates the
decoded fields into two tables.

Randomness (`secrets.token_hex`, `secrets.token_urlsafe`,
`secrets.randbelow`) is modelled by explicit tapes of drawn values: a byte
stream `Nat → Nat` for token generation and a drawn `Nat` for `randbelow`
(whose result modulo `n` models "a value in `[0, n)`").  The `lxml` element
tree is modelled by the inductive `XmlTree`; `tree.write`/`etree.parse` are
the library's inverse serialisation pair, so encoding and decoding are
related at the tree level.
-/

/-- Lowercase hexadecimal alphabet used by `bytes.hex` / `secrets.token_hex`. -/
def hexAlphabet : List Char := "0123456789abcdef".toList

/-- The hex digit for a value; values are masked to 4 bits as in byte output. -/
def hexDigit (n : Nat) : Char := hexAlphabet.getD n '0'

/-- Two lowercase hex digits of one byte, high nibble first (Python `bytes.hex`). -/
def byteToHex (b : Nat) : List Char := [hexDigit (b / 16 % 16), hexDigit (b % 16)]

/-- Hex encoding of a byte list, as produced by `bytes.hex`. -/
def hexEncode : List Nat → List Char
  | [] => []
  | b :: rest => byteToHex b ++ hexEncode rest

/-- Model of `secrets.token_hex(nbytes)`: hex string of `nbytes` random bytes drawn
from the byte stream. -/
def token_hex (nbytes : Nat) (stream : Nat → Nat) : String :=
  ⟨hexEncode ((List.range nbytes).map stream)⟩

/-- The URL-safe base64 alphabet used by `base64.urlsafe_b64encode`. -/
def b64Alphabet : List Char :=
  "ABCDEFGHIJKLMNOPQRSTUVWXYZabcdefghijklmnopqrstuvwxyz0123456789-_".toList

/-- The URL-safe base64 character for a 6-bit value. -/
def b64Char (n : Nat) : Char := b64Alphabet.getD n 'A'

/-- URL-safe base64 of a byte list with the `=` padding stripped, as
`secrets.token_urlsafe` produces (it base64url-encodes the bytes and removes
the trailing padding). -/
def b64Encode : List Nat → List Char
  | [] => []
  | [b1] => [b64Char (b1 / 4 % 64), b64Char (b1 % 4 * 16)]
  | [b1, b2] =>
      [b64Char (b1 / 4 % 64), b64Char ((b1 % 4 * 16 + b2 / 16) % 64),
       b64Char (b2 % 16 * 4)]
  | b1 :: b2 :: b3 :: rest =>
      b64Char (b1 / 4 % 64) :: b64Char ((b1 % 4 * 16 + b2 / 16) % 64) ::
      b64Char ((b2 % 16 * 4 + b3 / 64) % 64) :: b64Char (b3 % 64) ::
      b64Encode rest

/-- Model of `secrets.token_urlsafe(nbytes)`: URL-safe base64 text of `nbytes` random
bytes drawn from the byte stream, padding stripped. -/
def token_urlsafe (nbytes : Nat) (stream : Nat → Nat) : String :=
  ⟨b64Encode ((List.range nbytes).map stream)⟩

/-- Model of `secrets.randbelow(n)`: some value in `[0, n)`, modelled as the drawn
value reduced modulo `n` (for `n = 0` Python raises; callers pass `n > 0`). -/
def randbelow (draw n : Nat) : Nat := draw % n

/-- An `lxml` element: tag, attribute list, children. -/
inductive XmlTree where
  | elem (tag : String) (attrs : List (String × String)) (children : List XmlTree)

/-- The element's tag. -/
def XmlTree.tag : XmlTree → String
  | .elem t _ _ => t

/-- The element's attributes. -/
def XmlTree.attrs : XmlTree → List (String × String)
  | .elem _ a _ => a

/-- The element's children. -/
def XmlTree.children : XmlTree → List XmlTree
  | .elem _ _ c => c

/-- Model of `element.get(key)`: attribute lookup, `None` when absent. -/
def XmlTree.getAttr (t : XmlTree) (k : String) : Option String :=
  (t.attrs.find? (fun p => p.1 == k)).map Prod.snd

mutual
/-- Document-order (preorder) traversal of a subtree, the element itself
first — the order `element.iter()` visits. -/
def XmlTree.iterList : XmlTree → List XmlTree
  | .elem t a cs => .elem t a cs :: iterListMany cs

/-- Preorder traversal of a forest, left to right. -/
def iterListMany : List XmlTree → List XmlTree
  | [] => []
  | c :: cs => c.iterList ++ iterListMany cs
end

/-- Model of `root.find(".//var[@name=nm]")`: the first descendant (document order,
root excluded) tagged `var` whose `name` attribute equals `nm`. -/
def findVar (root : XmlTree) (nm : String) : Option XmlTree :=
  (iterListMany root.children).find?
    (fun c => c.tag == "var" && c.getAttr "name" == some nm)

/-- Model of `root.find("objects")`: the first direct child tagged `objects`. -/
def findObjects (root : XmlTree) : Option XmlTree :=
  root.children.find? (fun c => c.tag == "objects")

/-- Model of `objects.iter("object")` followed by `.get("name")` on each hit: the
`name` attributes of all subtree elements tagged `object`, document order. -/
def objectNames (objects : XmlTree) : List (Option String) :=
  (objects.iterList.filter (fun c => c.tag == "object")).map
    (fun c => c.getAttr "name")

/-- The configuration fields of the `LXML` class (`LXML.__init__`). -/
structure LXML where
  xml_count : Nat
  token_length : Nat
  level_max : Nat
  name_length : Nat
  objects_max : Nat

/-- The module-level constants of `xmler.py`, bundled the way `__main__`
passes them to `LXML`. -/
def defaultLXML : LXML :=
  { xml_count := 100, token_length := 64, level_max := 100,
    name_length := 32, objects_max := 10 }

/-- One record's worth of random draws consumed by one iteration of
`LXML.generate`: a byte stream for the id token, the two `randbelow` draws,
and one byte stream per object name. -/
structure RandTape where
  idStream : Nat → Nat
  levelDraw : Nat
  countDraw : Nat
  nameStream : Nat → Nat → Nat

/-- A synthetic record, the data one `LXML.generate` iteration encodes:
hex id, level, ordered object names. -/
structure Record where
  id : String
  level : Nat
  objects : List String

/-- The field values one iteration of `LXML.generate` draws:
`id = secrets.token_hex(token_length)`,
`level = secrets.randbelow(level_max) + 1`, and
`secrets.randbelow(objects_max) + 1` object names, each
`secrets.token_urlsafe(name_length)`. -/
def genRecord (cfg : LXML) (t : RandTape) : Record :=
  { id := token_hex cfg.token_length t.idStream,
    level := randbelow t.levelDraw cfg.level_max + 1,
    objects := (List.range (randbelow t.countDraw cfg.objects_max + 1)).map
      (fun i => token_urlsafe cfg.name_length (t.nameStream i)) }

/-- The `object` child element built for one object name. -/
def objectElem (nm : String) : XmlTree := .elem "object" [("name", nm)] []

/-- The element tree one iteration of `LXML.generate` builds for a record:
`root` holding `var name="id"`, `var name="level"` and the `objects`
container, in that order. -/
def encodeRecord (r : Record) : XmlTree :=
  .elem "root" []
    [.elem "var" [("name", "id"), ("value", r.id)] [],
     .elem "var" [("name", "level"), ("value", toString r.level)] [],
     .elem "objects" [] (r.objects.map objectElem)]

/-- The records drawn by `LXML.generate`: `xml_count` fresh records, the
`i`-th from the `i`-th tape. -/
def LXML.generateRecords (cfg : LXML) (tapes : Nat → RandTape) : List Record :=
  (List.range cfg.xml_count).map (fun i => genRecord cfg (tapes i))

/-- Model of `LXML.generate`: the `xml_count` documents yielded, as element trees
(`tree.write` serialises each to bytes; `etree.parse` is its inverse). -/
def LXML.generate (cfg : LXML) (tapes : Nat → RandTape) : List XmlTree :=
  (cfg.generateRecords tapes).map encodeRecord

/-- The dict `LXML.read` returns: each field is `None`-able because
`element.get` returns `None` for a missing attribute. -/
structure ReadResult where
  id : Option String
  level : Option String
  object_names : List (Option String)

/-- Model of `LXML.read`: find the `id` var, the `level` var and the `objects`
container, then build the dict from their attributes.  When a `find` comes
back empty the attribute access on `None` raises (the spec's
`MalformedDocument`); a found element with a missing attribute just puts
`None` in the dict. -/
def LXML.read (root : XmlTree) : Except String ReadResult :=
  match findVar root "id" with
  | none => .error "MalformedDocument"
  | some vid =>
    match findVar root "level" with
    | none => .error "MalformedDocument"
    | some vlv =>
      match findObjects root with
      | none => .error "MalformedDocument"
      | some objs =>
        .ok { id := vid.getAttr "value", level := vlv.getAttr "value",
              object_names := objectNames objs }

/-- The dict `LXML.read` recovers from a record's own document. -/
def expectedRead (r : Record) : ReadResult :=
  { id := some r.id, level := some (toString r.level),
    object_names := r.objects.map some }

/-- Model of `CSV.parse_level`: one `(id, level)` row per record dict, input order. -/
def CSV.parse_level (data : List ReadResult) :
    List (Option String × Option String) :=
  data.map (fun e => (e.id, e.level))

/-- The object rows of one record dict: one `(id, name)` row per object. -/
def objectRows (e : ReadResult) : List (Option String × Option String) :=
  e.object_names.map (fun nm => (e.id, nm))

/-- Model of `CSV.parse_objects`: for each record dict, one `(id, object_name)` row
per object, record order then object order. -/
def CSV.parse_objects (data : List ReadResult) :
    List (Option String × Option String) :=
  (data.map objectRows).flatten

/-- Model of `CSV.write`: `Pool.map` each parser over the batches (index order
preserved by `Pool.map`) and `pandas.concat` the per-batch frames, giving
the `levels.csv` and `objects.csv` row lists. -/
def CSV.write (data : List (List ReadResult)) :
    List (Option String × Option String) × List (Option String × Option String) :=
  ((data.map CSV.parse_level).flatten, (data.map CSV.parse_objects).flatten)

/-- An archive on disk: the member list, each member a name and the element
tree of its (serialised) document, in write order — `zipfile` keeps the
directory in that order. -/
def Archive := List (String × XmlTree)

/-- Model of `Zip.create(prefix)`: write each generated document as member
`"{i}.xml"` of archive `"{prefix}.zip"` and return that name; modelled as
the pair (returned name, archive written). -/
def Zip.create (cfg : LXML) (tapes : Nat → RandTape) (pfx : Nat) :
    String × Archive :=
  (toString pfx ++ ".zip",
   (cfg.generate tapes).enum.map (fun p => (toString p.1 ++ ".xml", p.2)))

/-- The mutable fields of a `Zip` object. -/
structure ZipState where
  generated_files : List String
  loaded_data : List (List ReadResult)

/-- Model of `Zip.__init__`: both lists start empty. -/
def Zip.init : ZipState := { generated_files := [], loaded_data := [] }

/-- Model of `Zip.generate_files(count)`: `Pool.map(self.create, range(count))`
(order-preserving), storing the returned archive names. -/
def Zip.generate_files (cfg : LXML) (tapes : Nat → Nat → RandTape)
    (count : Nat) (s : ZipState) : ZipState :=
  { s with generated_files :=
      (List.range count).map (fun i => (Zip.create cfg (tapes i) i).1) }

/-- Model of `Zip.read(zip_file)` given the opened archive: decode every member in
directory order, aborting on the first member that fails to decode. -/
def zipReadArchive : Archive → Except String (List ReadResult)
  | [] => .ok []
  | m :: rest =>
    match LXML.read m.2 with
    | .error e => .error e
    | .ok r =>
      match zipReadArchive rest with
      | .error e => .error e
      | .ok rs => .ok (r :: rs)

/-- Model of `Zip.read` against a filesystem mapping archive names to their
contents. -/
def Zip.read (fs : String → Archive) (name : String) :
    Except String (List ReadResult) :=
  zipReadArchive (fs name)

/-- The batches `Zip.read` yields for a list of archive names, first
failure aborting. -/
def zipReadMany (fs : String → Archive) :
    List String → Except String (List (List ReadResult))
  | [] => .ok []
  | n :: rest =>
    match Zip.read fs n with
    | .error e => .error e
    | .ok batch =>
      match zipReadMany fs rest with
      | .error e => .error e
      | .ok bs => .ok (batch :: bs)

/-- The loop of `Zip.read_generated`: read each named archive and append
its batch to `loaded_data`. -/
def readGeneratedLoop (fs : String → Archive) :
    List String → ZipState → Except String ZipState
  | [], s => .ok s
  | n :: rest, s =>
    match Zip.read fs n with
    | .error e => .error e
    | .ok batch =>
      readGeneratedLoop fs rest
        { s with loaded_data := s.loaded_data ++ [batch] }

/-- Model of `Zip.read_generated`: iterate over `self.generated_files`, appending
one freshly read batch per name to `self.loaded_data`. -/
def Zip.read_generated (fs : String → Archive) (s : ZipState) :
    Except String ZipState :=
  readGeneratedLoop fs s.generated_files s

/-- Random tape with all draws zero, for concrete evaluations. -/
def zeroTape : RandTape :=
  { idStream := fun _ => 0, levelDraw := 0, countDraw := 0,
    nameStream := fun _ _ => 0 }

/-- A document whose `id` var lacks its `value` attribute but is otherwise
complete. -/
def idValueMissingDoc : XmlTree :=
  .elem "root" []
    [.elem "var" [("name", "id")] [],
     .elem "var" [("name", "level"), ("value", "7")] [],
     .elem "objects" [] [objectElem "a"]]

/-- A decoded record dict used as concrete aggregation input. -/
def demoRead : ReadResult :=
  { id := some "a", level := some "1", object_names := [some "x"] }

/-- A second decoded record dict, with two objects. -/
def demoRead2 : ReadResult :=
  { id := some "b", level := some "2", object_names := [some "y", some "z"] }

/-- One concrete batch list (one archive, one record). -/
def demoData : List (List ReadResult) := [[demoRead]]

/-- Two concrete batches of one record each. -/
def demoData2 : List (List ReadResult) := [[demoRead], [demoRead2]]

/-- A one-record concrete record value. -/
def demoRecord : Record := { id := "aa", level := 5, objects := ["x"] }

/-- A filesystem holding one single-member archive under every name. -/
def demoFs : String → Archive :=
  fun _ => [("0.xml", encodeRecord demoRecord)]

/-- A `Zip` state that has generated one archive name. -/
def demoZipState : ZipState :=
  { generated_files := ["0.zip"], loaded_data := [] }

/-- Offset of slice `i` inside the concatenation of `f` over `l`: the total
length of the first `i` mapped slices. -/
def sliceOffset {α β : Type} (f : α → List β) (l : List α) (i : Nat) : Nat :=
  ((l.take i).map (fun a => (f a).length)).sum

/-- A single-record configuration mirroring the module constants, used for
concrete instantiations. -/
def oneRecordCfg : LXML := { defaultLXML with xml_count := 1 }

theorem iterListMany_objectElems (names : List String) :
    iterListMany (names.map objectElem) = names.map objectElem := by
  induction names with
  | nil => rfl
  | cons nm rest ih =>
      simp [objectElem, XmlTree.iterList, iterListMany, ih]

theorem objectNames_objectElems (names : List String) :
    objectNames (.elem "objects" [] (names.map objectElem))
      = names.map some := by
  unfold objectNames
  rw [XmlTree.iterList, iterListMany_objectElems]
  induction names with
  | nil => rfl
  | cons nm rest ih =>
      simpa [objectElem, XmlTree.tag, XmlTree.getAttr, XmlTree.attrs] using ih

theorem read_encodeRecord (r : Record) :
    LXML.read (encodeRecord r) = .ok (expectedRead r) := by
  unfold LXML.read encodeRecord findVar findObjects
  simp [XmlTree.children, iterListMany, XmlTree.iterList, XmlTree.tag,
        XmlTree.getAttr, XmlTree.attrs, List.find?, expectedRead,
        iterListMany_objectElems, objectNames_objectElems]

/-- C1: decoding the document encoded for any record reproduces the
record's id, its level in string form, and the ordered object names. -/
theorem C1_round_trip (r : Record) :
    LXML.read (encodeRecord r) = .ok (expectedRead r) :=
  read_encodeRecord r

/-- C2 counterexample: a document whose `id` entry is present but missing
its `value` attribute (the claim's "structurally inconsistent" case) does
not fail — decode returns a partial record with a null `id`. -/
theorem C2_missing_attribute_partial_record :
    LXML.read idValueMissingDoc
      = .ok { id := none, level := some "7", object_names := [some "a"] } := by
  rfl

/-- C2 (amended): decode fails with `MalformedDocument` exactly when the
`id` var entry, the `level` var entry, or the `objects` container is
absent from the document; an entry that is present but lacks its expected
attribute does not fail (the corresponding field is null instead). -/
theorem C2_read_error_iff_entry_absent (t : XmlTree) :
    LXML.read t = .error "MalformedDocument"
      ↔ (findVar t "id" = none ∨ findVar t "level" = none
          ∨ findObjects t = none) := by
  unfold LXML.read
  rcases h1 : findVar t "id" with _ | v1 <;>
    rcases h2 : findVar t "level" with _ | v2 <;>
      rcases h3 : findObjects t with _ | v3 <;> simp

/-- C3: the archive written by `Zip.create` has exactly `xml_count`
members, named `0.xml` through `(xml_count - 1).xml` in order, with no
gaps. -/
theorem C3_archive_member_names (cfg : LXML) (tapes : Nat → RandTape)
    (pfx : Nat) :
    (Zip.create cfg tapes pfx).2.length = cfg.xml_count ∧
    (Zip.create cfg tapes pfx).2.map Prod.fst
      = (List.range cfg.xml_count).map (fun i => toString i ++ ".xml") := by
  constructor
  · simp [Zip.create, LXML.generate, LXML.generateRecords]
  · show ((cfg.generate tapes).enum.map
        (fun p => (toString p.1 ++ ".xml", p.2))).map Prod.fst = _
    rw [List.map_map]
    have hc : (Prod.fst ∘ fun p : Nat × XmlTree =>
        (toString p.1 ++ ".xml", p.2))
        = (fun i => toString i ++ ".xml") ∘ Prod.fst := rfl
    rw [hc, ← List.map_map, List.enum_map_fst]
    simp [LXML.generate, LXML.generateRecords]

theorem zipReadArchive_encoded (ms : Archive) (rs : List Record)
    (h : ms.map Prod.snd = rs.map encodeRecord) :
    zipReadArchive ms = .ok (rs.map expectedRead) := by
  induction ms generalizing rs with
  | nil =>
      have : rs = [] := by
        cases rs with
        | nil => rfl
        | cons r rs' => simp at h
      subst this
      rfl
  | cons m ms ih =>
      cases rs with
      | nil => simp at h
      | cons r rs' =>
          simp only [List.map_cons, List.cons.injEq] at h
          simp [zipReadArchive, h.1, read_encodeRecord, ih rs' h.2]

/-- C4: decoding every member of an archive `Zip.create` built yields the
same records the build generated — in particular a permutation of them. -/
theorem C4_read_back_is_permutation (cfg : LXML) (tapes : Nat → RandTape)
    (pfx : Nat) :
    ∃ l, zipReadArchive (Zip.create cfg tapes pfx).2 = .ok l ∧
      l.Perm ((cfg.generateRecords tapes).map expectedRead) := by
  refine ⟨_, zipReadArchive_encoded _ (cfg.generateRecords tapes) ?_,
    List.Perm.refl _⟩
  show ((cfg.generate tapes).enum.map
      (fun p => (toString p.1 ++ ".xml", p.2))).map Prod.snd = _
  rw [List.map_map]
  have hc : (Prod.snd ∘ fun p : Nat × XmlTree =>
      (toString p.1 ++ ".xml", p.2)) = Prod.snd := rfl
  rw [hc, List.enum_map_snd]
  rfl

theorem length_parse_level (b : List ReadResult) :
    (CSV.parse_level b).length = b.length := by
  simp [CSV.parse_level]

theorem length_parse_objects (b : List ReadResult) :
    (CSV.parse_objects b).length
      = (b.map (fun e => e.object_names.length)).sum := by
  have hc : (List.length ∘ objectRows)
      = fun e : ReadResult => e.object_names.length := by
    funext e
    simp [objectRows]
  simp [CSV.parse_objects, Function.comp, hc]

/-- C5: aggregating `m` batches of `k` records each gives a levels table
with `m * k` rows and an objects table with one row per object across all
records. -/
theorem C5_table_row_counts (data : List (List ReadResult)) (m k : Nat)
    (hm : data.length = m) (hk : ∀ b ∈ data, b.length = k) :
    (CSV.write data).1.length = m * k ∧
    (CSV.write data).2.length
      = (data.map (fun b => (b.map (fun e => e.object_names.length)).sum)).sum := by
  constructor
  · have hrep : data.map List.length = List.replicate m k := by
      rw [List.eq_replicate_iff]
      refine ⟨by simp [hm], ?_⟩
      intro x hx
      obtain ⟨b, hb, rfl⟩ := List.mem_map.1 hx
      exact hk b hb
    have hc : (List.length ∘ CSV.parse_level)
        = (List.length : List ReadResult → Nat) := by
      funext b
      exact length_parse_level b
    have : (CSV.write data).1.length = (data.map List.length).sum := by
      simp [CSV.write, Function.comp, hc]
    rw [this, hrep, List.sum_replicate, smul_eq_mul]
  · have hc : (List.length ∘ CSV.parse_objects)
        = fun b : List ReadResult =>
            (b.map (fun e => e.object_names.length)).sum := by
      funext b
      exact length_parse_objects b
    simp [CSV.write, Function.comp, hc]

/-- C5 witness: two batches of one record each give two level rows, and
three object rows (the records hold one and two objects). -/
theorem C5_table_row_counts_witness :
    demoData2.length = 2 ∧
    (CSV.write demoData2).1.length = 2 * 1 ∧
    (CSV.write demoData2).2.length
      = (demoData2.map (fun b => (b.map (fun e => e.object_names.length)).sum)).sum := by
  refine ⟨rfl, ?_, ?_⟩
  · exact (C5_table_row_counts demoData2 2 1 rfl (by decide)).1
  · exact (C5_table_row_counts demoData2 2 1 rfl (by decide)).2

theorem flatten_get? {α β : Type} (f : α → List β) (l : List α) (i j : Nat)
    (hi : i < l.length) (hj : j < (f (l.get ⟨i, hi⟩)).length) :
    ((l.map f).flatten).get? (sliceOffset f l i + j)
      = (f (l.get ⟨i, hi⟩)).get? j := by
  induction l generalizing i with
  | nil => exact absurd hi (Nat.not_lt_zero i)
  | cons a l ih =>
      cases i with
      | zero =>
          simp only [sliceOffset, List.take_zero, List.map_nil, List.sum_nil,
            Nat.zero_add, List.map_cons, List.flatten_cons]
          exact List.get?_append hj
      | succ i =>
          have hi' : i < l.length := Nat.lt_of_succ_lt_succ hi
          have hoff : sliceOffset f (a :: l) (i + 1)
              = (f a).length + sliceOffset f l i := by
            simp [sliceOffset, List.take_succ_cons]
          simp only [List.map_cons, List.flatten_cons, hoff]
          rw [Nat.add_assoc, List.get?_append_right (Nat.le_add_right _ _),
            Nat.add_sub_cancel_left]
          exact ih i hi' hj

/-- C6: in both aggregated tables the rows appear grouped by source batch
in input order, then by record order within a batch, then (objects table)
by object order within a record: row `j` of batch `i`'s slice of the
levels table is record `(i, j)`'s `(id, level)` pair, and row `l` of
record `(i, j)`'s slice of the objects table is its `l`-th object.
`Pool.map` gathers per-batch partial results in input index order, which
`CSV.write`'s concatenation reflects. -/
theorem C6_aggregated_row_order (data : List (List ReadResult)) (i j l : Nat)
    (hi : i < data.length)
    (hj : j < (data.get ⟨i, hi⟩).length)
    (hl : l < ((data.get ⟨i, hi⟩).get ⟨j, hj⟩).object_names.length) :
    (CSV.write data).1.get? (sliceOffset CSV.parse_level data i + j)
      = some (((data.get ⟨i, hi⟩).get ⟨j, hj⟩).id,
              ((data.get ⟨i, hi⟩).get ⟨j, hj⟩).level)
    ∧ (CSV.write data).2.get?
        (sliceOffset CSV.parse_objects data i
          + (sliceOffset objectRows (data.get ⟨i, hi⟩) j + l))
      = some (((data.get ⟨i, hi⟩).get ⟨j, hj⟩).id,
              ((data.get ⟨i, hi⟩).get ⟨j, hj⟩).object_names.get ⟨l, hl⟩) := by
  set b := data.get ⟨i, hi⟩ with hb
  set e := b.get ⟨j, hj⟩ with he
  constructor
  · have hj' : j < (CSV.parse_level b).length := by
      rw [length_parse_level]
      exact hj
    have h1 := flatten_get? CSV.parse_level data i j hi hj'
    have h2 : (CSV.parse_level b).get? j = some (e.id, e.level) := by
      rw [CSV.parse_level, List.get?_map, List.get?_eq_get hj]
      rfl
    calc (CSV.write data).1.get? (sliceOffset CSV.parse_level data i + j)
        = (CSV.parse_level b).get? j := h1
      _ = some (e.id, e.level) := h2
  · have hrow : (objectRows e).get? l
        = some (e.id, e.object_names.get ⟨l, hl⟩) := by
      rw [objectRows, List.get?_map, List.get?_eq_get hl]
      rfl
    have hl' : l < (objectRows e).length := by
      simp [objectRows]
      exact hl
    have hinner := flatten_get? objectRows b j l hj hl'
    have hinner' : (CSV.parse_objects b).get? (sliceOffset objectRows b j + l)
        = some (e.id, e.object_names.get ⟨l, hl⟩) := by
      rw [CSV.parse_objects, hinner, hrow]
    have hbound : sliceOffset objectRows b j + l
        < (CSV.parse_objects b).length := by
      obtain ⟨h, -⟩ := List.get?_eq_some.1 hinner'
      exact h
    have houter := flatten_get? CSV.parse_objects data i
      (sliceOffset objectRows b j + l) hi hbound
    calc (CSV.write data).2.get?
          (sliceOffset CSV.parse_objects data i
            + (sliceOffset objectRows b j + l))
        = (CSV.parse_objects b).get? (sliceOffset objectRows b j + l) :=
          houter
      _ = some (e.id, e.object_names.get ⟨l, hl⟩) := hinner'

/-- C6 witness: in the two-batch demo data the first row of each table is
record (0,0)'s pair, evaluated concretely. -/
theorem C6_aggregated_row_order_witness :
    0 < demoData2.length ∧
    (CSV.write demoData2).1.get? (sliceOffset CSV.parse_level demoData2 0 + 0)
      = some (some "a", some "1") ∧
    (CSV.write demoData2).2.get?
        (sliceOffset CSV.parse_objects demoData2 0
          + (sliceOffset objectRows (demoData2.get ⟨0, by decide⟩) 0 + 0))
      = some (some "a", some "x") := by
  have h := C6_aggregated_row_order demoData2 0 0 0 (by decide) (by decide)
    (by decide)
  exact ⟨by decide, h.1, h.2⟩

/-- C7: every record `LXML.generate` draws has its level in
`[1, level_max]` and between 1 and `objects_max` objects (both bounds
inclusive), whenever the configured maxima are positive (as `randbelow`
requires). -/
theorem C7_level_and_object_count_bounds (cfg : LXML) (tapes : Nat → RandTape)
    (hlv : 0 < cfg.level_max) (hob : 0 < cfg.objects_max)
    (r : Record) (hr : r ∈ cfg.generateRecords tapes) :
    (1 ≤ r.level ∧ r.level ≤ cfg.level_max)
    ∧ (1 ≤ r.objects.length ∧ r.objects.length ≤ cfg.objects_max) := by
  obtain ⟨i, -, rfl⟩ := List.mem_map.1 hr
  refine ⟨⟨Nat.succ_le_succ (Nat.zero_le _), ?_⟩,
          ⟨?_, ?_⟩⟩
  · exact Nat.succ_le_of_lt (Nat.mod_lt _ hlv)
  · simp [genRecord]
  · have : randbelow (tapes i).countDraw cfg.objects_max < cfg.objects_max :=
      Nat.mod_lt _ hob
    simpa [genRecord] using Nat.succ_le_of_lt this

/-- C7 witness: the record generated from the all-zero tape under the
module's constants has level 1 and exactly one object. -/
theorem C7_level_and_object_count_bounds_witness :
    0 < oneRecordCfg.level_max ∧ 0 < oneRecordCfg.objects_max ∧
    ((1 ≤ (genRecord oneRecordCfg zeroTape).level
        ∧ (genRecord oneRecordCfg zeroTape).level ≤ oneRecordCfg.level_max)
      ∧ (1 ≤ (genRecord oneRecordCfg zeroTape).objects.length
        ∧ (genRecord oneRecordCfg zeroTape).objects.length
            ≤ oneRecordCfg.objects_max)) := by
  refine ⟨by decide, by decide, ?_⟩
  exact C7_level_and_object_count_bounds oneRecordCfg (fun _ => zeroTape)
    (by decide) (by decide) (genRecord oneRecordCfg zeroTape)
    (List.mem_singleton.mpr rfl)

theorem getD_mem_of_default_mem {α : Type} (l : List α) (d : α) (n : Nat)
    (hd : d ∈ l) : l.getD n d ∈ l := by
  rw [List.getD_eq_getElem?_getD]
  cases h : l[n]? with
  | none => simpa [h] using hd
  | some x =>
      obtain ⟨hb, rfl⟩ := List.getElem?_eq_some.1 h
      exact List.getElem_mem hb

theorem hexDigit_mem (n : Nat) : hexDigit n ∈ hexAlphabet :=
  getD_mem_of_default_mem _ _ _ (by decide)

theorem b64Char_mem (n : Nat) : b64Char n ∈ b64Alphabet :=
  getD_mem_of_default_mem _ _ _ (by decide)

theorem hexEncode_length (l : List Nat) : (hexEncode l).length = 2 * l.length := by
  induction l with
  | nil => rfl
  | cons b rest ih =>
      simp [hexEncode, byteToHex, ih]
      omega

theorem hexEncode_mem (l : List Nat) (c : Char) (hc : c ∈ hexEncode l) :
    c ∈ hexAlphabet := by
  induction l with
  | nil => simp [hexEncode] at hc
  | cons b rest ih =>
      simp only [hexEncode, byteToHex, List.cons_append, List.nil_append,
        List.mem_cons] at hc
      rcases hc with rfl | rfl | hc
      · exact hexDigit_mem _
      · exact hexDigit_mem _
      · exact ih hc

theorem b64Encode_length (l : List Nat) :
    (b64Encode l).length = (4 * l.length + 2) / 3 := by
  induction l using b64Encode.induct with
  | case1 => rfl
  | case2 b1 => simp [b64Encode]
  | case3 b1 b2 => simp [b64Encode]
  | case4 b1 b2 b3 rest ih =>
      simp only [b64Encode, List.length_cons, ih, List.length_cons]
      omega

theorem b64Encode_mem (l : List Nat) (c : Char) (hc : c ∈ b64Encode l) :
    c ∈ b64Alphabet := by
  induction l using b64Encode.induct with
  | case1 => simp [b64Encode] at hc
  | case2 b1 =>
      simp only [b64Encode, List.mem_cons, List.not_mem_nil, or_false] at hc
      rcases hc with rfl | rfl <;> exact b64Char_mem _
  | case3 b1 b2 =>
      simp only [b64Encode, List.mem_cons, List.not_mem_nil, or_false] at hc
      rcases hc with rfl | rfl | rfl <;> exact b64Char_mem _
  | case4 b1 b2 b3 rest ih =>
      simp only [b64Encode, List.mem_cons] at hc
      rcases hc with rfl | rfl | rfl | rfl | hc
      · exact b64Char_mem _
      · exact b64Char_mem _
      · exact b64Char_mem _
      · exact b64Char_mem _
      · exact ih hc

/-- C8 counterexample: under the module's constants (`NAME_LENGTH = 32`)
the generated object name has 43 characters, not the configured name
length — `secrets.token_urlsafe(n)` consumes `n` random bytes but returns
`⌈4n/3⌉` characters. -/
theorem C8_name_length_counterexample :
    ∃ nm ∈ (genRecord defaultLXML zeroTape).objects,
      nm.length ≠ defaultLXML.name_length := by
  refine ⟨token_urlsafe defaultLXML.name_length (zeroTape.nameStream 0),
    List.mem_singleton.mpr rfl, by decide⟩

/-- C8 (amended): every generated id is a hex string of length exactly
`2 * token_length`, and every object name is a URL-safe base64 string
derived from `name_length` random bytes, of character length
`(4 * name_length + 2) / 3` (43 for the configured 32). -/
theorem C8_token_shapes (cfg : LXML) (tapes : Nat → RandTape)
    (r : Record) (hr : r ∈ cfg.generateRecords tapes) :
    r.id.length = 2 * cfg.token_length
    ∧ (∀ c ∈ r.id.toList, c ∈ hexAlphabet)
    ∧ ∀ nm ∈ r.objects,
        nm.length = (4 * cfg.name_length + 2) / 3
        ∧ ∀ c ∈ nm.toList, c ∈ b64Alphabet := by
  obtain ⟨i, -, rfl⟩ := List.mem_map.1 hr
  refine ⟨?_, ?_, ?_⟩
  · simp [genRecord, token_hex, String.length, hexEncode_length]
  · intro c hc
    exact hexEncode_mem _ c
      (by simpa [genRecord, token_hex, String.toList] using hc)
  · intro nm hnm
    obtain ⟨j, -, rfl⟩ := List.mem_map.1 hnm
    constructor
    · simp [token_urlsafe, String.length, b64Encode_length]
    · intro c hc
      exact b64Encode_mem _ c
        (by simpa [token_urlsafe, String.toList] using hc)

/-- C8 amended-claim witness: the concrete record generated from the
all-zero tape has a 128-character hex id and one 43-character URL-safe
name. -/
theorem C8_token_shapes_witness :
    (genRecord oneRecordCfg zeroTape).id.length = 2 * oneRecordCfg.token_length
    ∧ (∀ c ∈ (genRecord oneRecordCfg zeroTape).id.toList, c ∈ hexAlphabet)
    ∧ ∀ nm ∈ (genRecord oneRecordCfg zeroTape).objects,
        nm.length = (4 * oneRecordCfg.name_length + 2) / 3
        ∧ ∀ c ∈ nm.toList, c ∈ b64Alphabet :=
  C8_token_shapes oneRecordCfg (fun _ => zeroTape) _
    (List.mem_singleton.mpr rfl)

/-- C9: after `Zip.generate_files(count)` the stored name list has exactly
`count` entries, and entry `i` is `"{i}.zip"` — the name `Zip.create`
returns for input index `i` (`Pool.map` gathers results in input index
order). -/
theorem C9_generate_files_names (cfg : LXML) (tapes : Nat → Nat → RandTape)
    (count i : Nat) (s : ZipState) (hi : i < count) :
    (Zip.generate_files cfg tapes count s).generated_files.length = count
    ∧ (Zip.generate_files cfg tapes count s).generated_files.get? i
        = some (toString i ++ ".zip")
    ∧ (Zip.generate_files cfg tapes count s).generated_files.get? i
        = some (Zip.create cfg (tapes i) i).1 := by
  refine ⟨by simp [Zip.generate_files], ?_, ?_⟩
  · show ((List.range count).map
        (fun j => (Zip.create cfg (tapes j) j).1)).get? i = _
    rw [List.get?_map, List.get?_range hi]
    rfl
  · show ((List.range count).map
        (fun j => (Zip.create cfg (tapes j) j).1)).get? i = _
    rw [List.get?_map, List.get?_range hi]
    rfl

/-- C9 witness: generating two archives stores `["0.zip", "1.zip"]`. -/
theorem C9_generate_files_names_witness :
    0 < 2
    ∧ ((Zip.generate_files defaultLXML (fun _ _ => zeroTape) 2
          Zip.init).generated_files.length = 2
      ∧ (Zip.generate_files defaultLXML (fun _ _ => zeroTape) 2
          Zip.init).generated_files.get? 0 = some (toString 0 ++ ".zip")
      ∧ (Zip.generate_files defaultLXML (fun _ _ => zeroTape) 2
          Zip.init).generated_files.get? 0
          = some (Zip.create defaultLXML ((fun _ _ => zeroTape) 0) 0).1) :=
  ⟨by decide, C9_generate_files_names defaultLXML (fun _ _ => zeroTape) 2 0
    Zip.init (by decide)⟩

theorem readGeneratedLoop_ok (fs : String → Archive) (names : List String)
    (s : ZipState) (bs : List (List ReadResult))
    (h : zipReadMany fs names = .ok bs) :
    readGeneratedLoop fs names s
      = .ok { generated_files := s.generated_files,
              loaded_data := s.loaded_data ++ bs } := by
  induction names generalizing s bs with
  | nil =>
      rw [zipReadMany] at h
      injection h with h'
      subst h'
      simp [readGeneratedLoop]
  | cons n rest ih =>
      rw [zipReadMany] at h
      cases hr : Zip.read fs n with
      | error e => rw [hr] at h; exact absurd h (by simp)
      | ok batch =>
          rw [hr] at h
          cases hm : zipReadMany fs rest with
          | error e => rw [hm] at h; exact absurd h (by simp)
          | ok bs' =>
              rw [hm] at h
              injection h with h'
              subst h'
              rw [readGeneratedLoop, hr]
              have hstep := ih { generated_files := s.generated_files, loaded_data := s.loaded_data ++ [batch] } bs' hm
              refine Eq.trans hstep ?_
              simp

/-- C10: `Zip.read_generated` leaves `generated_files` unchanged and only
appends to `loaded_data` — one freshly read batch per stored name, after
the previous contents; calling it again appends the same batches a second
time. -/
theorem C10_read_generated_appends (fs : String → Archive) (s : ZipState)
    (bs : List (List ReadResult))
    (h : zipReadMany fs s.generated_files = .ok bs) :
    Zip.read_generated fs s
      = .ok { generated_files := s.generated_files,
              loaded_data := s.loaded_data ++ bs }
    ∧ Zip.read_generated fs
        { generated_files := s.generated_files,
          loaded_data := s.loaded_data ++ bs }
      = .ok { generated_files := s.generated_files,
              loaded_data := (s.loaded_data ++ bs) ++ bs } := by
  refine ⟨readGeneratedLoop_ok fs s.generated_files s bs h, ?_⟩
  have h2 := readGeneratedLoop_ok fs s.generated_files
    { generated_files := s.generated_files,
      loaded_data := s.loaded_data ++ bs } bs h
  simpa [Zip.read_generated] using h2

/-- C10 witness: one stored archive name over a one-record filesystem,
read twice, duplicates the batch. -/
theorem C10_read_generated_appends_witness :
    zipReadMany demoFs demoZipState.generated_files
      = .ok [[{ id := some "aa", level := some "5",
                object_names := [some "x"] }]]
    ∧ Zip.read_generated demoFs demoZipState
      = .ok { generated_files := demoZipState.generated_files,
              loaded_data := demoZipState.loaded_data
                ++ [[{ id := some "aa", level := some "5",
                       object_names := [some "x"] }]] }
    ∧ Zip.read_generated demoFs
        { generated_files := demoZipState.generated_files,
          loaded_data := demoZipState.loaded_data
            ++ [[{ id := some "aa", level := some "5",
                   object_names := [some "x"] }]] }
      = .ok { generated_files := demoZipState.generated_files,
              loaded_data := (demoZipState.loaded_data
                ++ [[{ id := some "aa", level := some "5",
                       object_names := [some "x"] }]])
                ++ [[{ id := some "aa", level := some "5",
                       object_names := [some "x"] }]] } := by
  have h := C10_read_generated_appends demoFs demoZipState
    [[{ id := some "aa", level := some "5", object_names := [some "x"] }]]
    rfl
  exact ⟨rfl, h.1, h.2⟩
